import Mathlib

/-!
Shallow embedding of the `nyan` terminal-UI library (Rust) and proofs about it.

The embedding covers:
* `src/objects.rs` — the `Objects` enum of drawable objects;
* `src/errors.rs`  — the `NyanError` enum;
* `src/cursor.rs`  — the `Cursor` movement commands;
* `src/app.rs`     — the `App` session controller (builder methods, `draw`, `exit`);
* `src/nyanobj.rs` — the map-based object registry (`HashMap`-backed);
* `src/nyan_obj.rs` — the list-based object registry (`Vec`-backed, with coordinates);
* `src/nyanterm.rs` — the `NyanTermObjs` registry;
* `src/input.rs`   — the key-event decoder.

Terminal I/O (crossterm) is the external driver: each driver primitive is
modelled as an emitted `TermEvent`, and driver calls are assumed to succeed.
Rust panics (`todo!`, `panic!`, and the `u64` division-by-zero in `draw`'s
sleep computation) are modelled explicitly: drawing returns a `DrawOutcome`
with a `panicked` constructor, and the frame sleep is an `Option Nat` that is
`none` exactly when the division panics.
-/

/-- `Objects` enum from `src/objects.rs`: `Block`, `Air`, or `Text` holding a
string (`Cow<'a, str>` in the source). -/
inductive Objects where
  | Block : Objects
  | Air : Objects
  | Text : String → Objects
deriving DecidableEq

/-- `NyanError` enum from `src/errors.rs`. -/
inductive NyanError where
  | DrawFailed : String → NyanError
  | Cursor : String → NyanError
  | ObjectNotFound : String → NyanError
deriving DecidableEq

/-- `Cursor` enum from `src/cursor.rs`: the closed set of cursor movement
commands (`u16` arguments modelled as `Nat`). -/
inductive Cursor where
  | Move : Nat → Nat → Cursor
  | MoveLeft : Nat → Cursor
  | MoveRight : Nat → Cursor
  | MoveUp : Nat → Cursor
  | MoveDown : Nat → Cursor
  | MoveToNextLine : Nat → Cursor
deriving DecidableEq

/-- One call into the external terminal driver (crossterm).  `cursorCmd c`
models `Cursor::move_cursor(c)` / `cursor::MoveTo`; `print s` models
`println!` of `s`; the remaining constructors model the screen-mode,
raw-mode, cursor-visibility and clear primitives used by `App`. -/
inductive TermEvent where
  | cursorCmd : Cursor → TermEvent
  | print : String → TermEvent
  | enterAlternateScreen : TermEvent
  | leaveAlternateScreen : TermEvent
  | enableRawMode : TermEvent
  | disableRawMode : TermEvent
  | showCursor : TermEvent
  | hideCursor : TermEvent
  | clearAll : TermEvent
deriving DecidableEq

/-- Result of one registry draw call: `ok evs` is a normal return emitting the
driver events `evs`; `error e` is an `Err(e)` return; `panicked msg` is a Rust
panic (`todo!()` or `panic!`) aborting the call. -/
inductive DrawOutcome where
  | ok : List TermEvent → DrawOutcome
  | error : NyanError → DrawOutcome
  | panicked : String → DrawOutcome
deriving DecidableEq

/-- The `App` struct from `src/app.rs` (the `stdout` handle is the external
driver and carries no state relevant here; `fps` is `u64`, modelled as `Nat`). -/
structure App where
  alternatescreen : Bool
  clear : Bool
  rawmode : Bool
  cursor : Bool
  fps : Nat
  looped : Bool
deriving DecidableEq

/-- `App::new(fps)`: all flags off, `looped` false, and `fps: fps.max(1)`
(the constructor clamps the frame rate away from zero). -/
def App.new (fps : Nat) : App :=
  { alternatescreen := false
    clear := false
    rawmode := false
    cursor := false
    fps := Nat.max fps 1
    looped := false }

/-- `App::alternate_screen`: sets the `alternatescreen` flag. -/
def App.alternate_screen (a : App) : App :=
  { a with alternatescreen := true }

/-- `App::clear`: sets the `clear` flag.  (Named `set_clear` here because the
field projection `App.clear` already takes the source name.) -/
def App.set_clear (a : App) : App :=
  { a with clear := true }

/-- `App::raw_mode`: sets the `rawmode` flag. -/
def App.raw_mode (a : App) : App :=
  { a with rawmode := true }

/-- `App::hide_cursor`: sets the `cursor` flag (true means hidden). -/
def App.hide_cursor (a : App) : App :=
  { a with cursor := true }

/-- `App::fps(fps)`: stores the given value into the `fps` field unchanged —
unlike `App::new`, this setter performs no clamping.  (Named `set_fps` here
because the field projection `App.fps` already takes the source name.) -/
def App.set_fps (a : App) (fps : Nat) : App :=
  { a with fps := fps }

/-- The sleep performed at the end of `App::draw`:
`Duration::from_millis(1000 / self.fps)`.  In Rust this `u64` division panics
when `fps = 0`, modelled as `none`; otherwise the sleep is `1000 / fps`
milliseconds. -/
def App.frameSleepMs (a : App) : Option Nat :=
  if a.fps = 0 then none else some (1000 / a.fps)

/-- `App::draw` from `src/app.rs`: returns the post-state, the driver events
emitted before the caller-supplied closure runs, and the frame sleep.
Faithful to the source order: move to origin; enter the alternate screen if
configured and not yet looped; enable raw mode if configured and not yet
looped; show or hide the cursor; clear if configured; set `looped`; run the
closure (external); sleep `1000 / fps` ms. -/
def App.draw (a : App) : App × List TermEvent × Option Nat :=
  ({ a with looped := true },
   [TermEvent.cursorCmd (Cursor.Move 0 0)]
     ++ (if a.alternatescreen && !a.looped then [TermEvent.enterAlternateScreen] else [])
     ++ (if a.rawmode && !a.looped then [TermEvent.enableRawMode] else [])
     ++ (if !a.cursor then [TermEvent.showCursor] else [TermEvent.hideCursor])
     ++ (if a.clear then [TermEvent.clearAll] else []),
   a.frameSleepMs)

/-- `App::exit` from `src/app.rs`: move to origin, show the cursor, leave the
alternate screen, and disable raw mode exactly when the `rawmode` flag is set. -/
def App.exit (a : App) : List TermEvent :=
  [TermEvent.cursorCmd (Cursor.Move 0 0), TermEvent.showCursor,
   TermEvent.leaveAlternateScreen]
    ++ (if a.rawmode then [TermEvent.disableRawMode] else [])

/-- Run `n` consecutive `App::draw` frames, collecting all driver events. -/
def App.runFrames : App → Nat → App × List TermEvent
  | a, 0 => (a, [])
  | a, Nat.succ n =>
    let s := a.draw
    let r := App.runFrames s.1 n
    (r.1, s.2.1 ++ r.2)

/-- Observable semantics of `HashMap::remove` on an association-list model of
the map: drop every binding of `k` (a `HashMap` holds at most one). -/
def hashMapRemove {α : Type} (k : String) : List (String × α) → List (String × α)
  | [] => []
  | (k', v') :: rest =>
    if k = k' then hashMapRemove k rest else (k', v') :: hashMapRemove k rest

/-- Observable semantics of `HashMap::insert` on an association-list model of
the map: record `k ↦ v`, discarding any previous binding of `k`, so the map
afterwards holds exactly one entry for `k`, bound to `v`. -/
def hashMapInsert {α : Type} (k : String) (v : α) (m : List (String × α)) :
    List (String × α) :=
  (k, v) :: hashMapRemove k m

/-- Observable semantics of `HashMap::get`: the value bound to `k`, if any. -/
def hashMapGet {α : Type} (k : String) : List (String × α) → Option α
  | [] => none
  | (k', v') :: rest => if k = k' then some v' else hashMapGet k rest

namespace nyanobj

/-- The map-based registry `NyanObj` from `src/nyanobj.rs`: a
`HashMap<Cow<str>, Objects>` from identifier to object, modelled as an
association list with `HashMap` observable semantics. -/
structure NyanObj where
  objects : List (String × Objects)
deriving DecidableEq

/-- `NyanObj::new` (`src/nyanobj.rs`): empty map. -/
def NyanObj.new : NyanObj := { objects := [] }

/-- `NyanObj::add_object` (`src/nyanobj.rs`): `self.objects.insert(id, object)`. -/
def NyanObj.add_object (m : NyanObj) (id : String) (object : Objects) : NyanObj :=
  { objects := hashMapInsert id object m.objects }

/-- `NyanObj::remove_object` (`src/nyanobj.rs`):
`self.objects.remove(&id)` — the removed value is discarded and the Rust
return type is `()`, so the caller observes only the new registry state and
no error is ever reported, present or absent. -/
def NyanObj.remove_object (m : NyanObj) (id : String) : NyanObj :=
  { objects := hashMapRemove id m.objects }

/-- `NyanObj::update_object` (`src/nyanobj.rs`): `remove` then `insert` of the
new object under the same id — note the insert happens whether or not `id`
was present. -/
def NyanObj.update_object (m : NyanObj) (id : String) (object : Objects) : NyanObj :=
  { objects := hashMapInsert id object (hashMapRemove id m.objects) }

/-- `NyanObj::draw_object` (`src/nyanobj.rs`): look up `id`; print a `Text`,
do nothing for `Air`, hit `todo!()` for `Block` (a panic whose message is
the standard `todo!` message), and return `Err(NyanError::ObjectNotFound(id))`
when the id is absent.  No cursor movement is involved. -/
def NyanObj.draw_object (m : NyanObj) (id : String) : DrawOutcome :=
  match hashMapGet id m.objects with
  | some (Objects.Text t) => DrawOutcome.ok [TermEvent.print t]
  | some Objects.Air => DrawOutcome.ok []
  | some Objects.Block => DrawOutcome.panicked "not yet implemented"
  | none => DrawOutcome.error (NyanError.ObjectNotFound id)

/-- `NyanObj::draw_with_move` (`src/nyanobj.rs`): when `id` is found, move the
cursor to `moveto` and then draw exactly as `draw_object` does; when `id` is
absent the `if let` falls through and the function returns `Ok(())` without
doing anything — no `ObjectNotFound` is produced. -/
def NyanObj.draw_with_move (m : NyanObj) (id : String) (moveto : Cursor) : DrawOutcome :=
  match hashMapGet id m.objects with
  | some (Objects.Text t) => DrawOutcome.ok [TermEvent.cursorCmd moveto, TermEvent.print t]
  | some Objects.Air => DrawOutcome.ok [TermEvent.cursorCmd moveto]
  | some Objects.Block => DrawOutcome.panicked "not yet implemented"
  | none => DrawOutcome.ok []

end nyanobj

/-- `Iterator::position` on a list: the index of the first element satisfying
`p`, used by the `Vec`-based registry in `src/nyan_obj.rs`. -/
def listPosition {α : Type} (p : α → Bool) : List α → Option Nat
  | [] => none
  | a :: l => if p a then some 0 else (listPosition p l).map (fun i => i + 1)

namespace nyan_obj

/-- One entry of the `Vec`-based registry: struct `NyanObjs` from
`src/nyan_obj.rs` (object, id, and `(x, y)` coordinate, `u16` as `Nat`). -/
structure NyanObjs where
  object : Objects
  id : String
  coordinate : Nat × Nat
deriving DecidableEq

/-- The `Vec`-based registry `NyanObj` from `src/nyan_obj.rs`. -/
structure NyanObj where
  inner : List NyanObjs
deriving DecidableEq

/-- `NyanObj::new` (`src/nyan_obj.rs`): empty vector. -/
def NyanObj.new : NyanObj := { inner := [] }

/-- `NyanObj::add_object` (`src/nyan_obj.rs`): `self.inner.push(...)` — the
entry is appended unconditionally, with no duplicate check. -/
def NyanObj.add_object (m : NyanObj) (id : String) (object : Objects)
    (coordinate : Nat × Nat) : NyanObj :=
  { inner := m.inner ++ [{ object := object, id := id, coordinate := coordinate }] }

/-- `NyanObj::add_object_with_default` (`src/nyan_obj.rs`): push with
coordinate `(0, 0)`. -/
def NyanObj.add_object_with_default (m : NyanObj) (id : String) (object : Objects) :
    NyanObj :=
  { inner := m.inner ++ [{ object := object, id := id, coordinate := (0, 0) }] }

/-- `NyanObj::remove_object` (`src/nyan_obj.rs`): find the index of the first
entry whose id matches (`iter().position`); remove it and return `Ok`, or
return `Err(NyanError::ObjectNotFound(id))` when no entry matches. -/
def NyanObj.remove_object (m : NyanObj) (id : String) : Except NyanError NyanObj :=
  match listPosition (fun f => decide (f.id = id)) m.inner with
  | some o => Except.ok { inner := m.inner.eraseIdx o }
  | none => Except.error (NyanError.ObjectNotFound id)

/-- `NyanObj::update_object` (`src/nyan_obj.rs`): delegates to
`remove_object(id)?` and nothing else — it takes no replacement object and
never inserts. -/
def NyanObj.update_object (m : NyanObj) (id : String) : Except NyanError NyanObj :=
  m.remove_object id

/-- `NyanObj::get` (`src/nyan_obj.rs`): `self.inner.iter().position(|f| f.id == id)`. -/
def NyanObj.get (m : NyanObj) (id : String) : Option Nat :=
  listPosition (fun f => decide (f.id = id)) m.inner

/-- `NyanObj::draw_object` (`src/nyan_obj.rs`): find the entry via `get`,
index into the vector (an out-of-bounds index would be a Rust panic, which
cannot occur because `get` returns a valid position), move the cursor to the
entry's stored coordinate, then draw: print for `Text`, nothing for `Air`,
`todo!()` for `Block`; absent ids give `Err(NyanError::ObjectNotFound(id))`. -/
def NyanObj.draw_object (m : NyanObj) (id : String) : DrawOutcome :=
  match m.get id with
  | some object_index =>
    match m.inner.get? object_index with
    | some obj =>
      match obj.object with
      | Objects.Text t =>
        DrawOutcome.ok
          [TermEvent.cursorCmd (Cursor.Move obj.coordinate.1 obj.coordinate.2),
           TermEvent.print t]
      | Objects.Air =>
        DrawOutcome.ok
          [TermEvent.cursorCmd (Cursor.Move obj.coordinate.1 obj.coordinate.2)]
      | Objects.Block => DrawOutcome.panicked "not yet implemented"
    | none => DrawOutcome.panicked "index out of bounds"
  | none => DrawOutcome.error (NyanError.ObjectNotFound id)

/-- `NyanObj::draw_with_move` (`src/nyan_obj.rs`): like `draw_object` but the
cursor is moved via the explicit `moveto` command instead of the stored
coordinate; absent ids give `Err(NyanError::ObjectNotFound(id))`. -/
def NyanObj.draw_with_move (m : NyanObj) (id : String) (moveto : Cursor) : DrawOutcome :=
  match m.get id with
  | some object_index =>
    match m.inner.get? object_index with
    | some obj =>
      match obj.object with
      | Objects.Text t =>
        DrawOutcome.ok [TermEvent.cursorCmd moveto, TermEvent.print t]
      | Objects.Air => DrawOutcome.ok [TermEvent.cursorCmd moveto]
      | Objects.Block => DrawOutcome.panicked "not yet implemented"
    | none => DrawOutcome.panicked "index out of bounds"
  | none => DrawOutcome.error (NyanError.ObjectNotFound id)

end nyan_obj

namespace nyanterm

/-- `NyanTermObjs` from `src/nyanterm.rs`: a `HashMap<P, Objects>` registry,
modelled for `P = String`. -/
structure NyanTermObjs where
  objects : List (String × Objects)
deriving DecidableEq

/-- `NyanTermObjs::new` (`src/nyanterm.rs`): empty map. -/
def NyanTermObjs.new : NyanTermObjs := { objects := [] }

/-- `NyanTermObjs::add_object` (`src/nyanterm.rs`): `self.objects.insert(id, object)`. -/
def NyanTermObjs.add_object (m : NyanTermObjs) (id : String) (object : Objects) :
    NyanTermObjs :=
  { objects := hashMapInsert id object m.objects }

/-- The message of the `panic!` in `NyanTermObjs::draw_object`:
`"Object with ID {:?} not found!"` with the `Debug` form of a `String` id
(which is the id in double quotes). -/
def notFoundPanicMsg (id : String) : String :=
  "Object with ID \"" ++ id ++ "\" not found!"

/-- `NyanTermObjs::draw_object` (`src/nyanterm.rs`): print a `Text`, do
nothing for `Air`, `todo!()` for `Block`; when the id is absent the function
does not return an error — it executes `panic!("Object with ID {:?} not
found!", id)`, aborting. -/
def NyanTermObjs.draw_object (m : NyanTermObjs) (id : String) : DrawOutcome :=
  match hashMapGet id m.objects with
  | some (Objects.Text t) => DrawOutcome.ok [TermEvent.print t]
  | some Objects.Air => DrawOutcome.ok []
  | some Objects.Block => DrawOutcome.panicked "not yet implemented"
  | none => DrawOutcome.panicked (notFoundPanicMsg id)

end nyanterm

/-- `NyanKey` enum from `src/input.rs`: the 26 letter keys plus `OtherKey`
carrying the raw character. -/
inductive NyanKey where
  | A | B | C | D | E | F | G | H | I | J | K | L | M
  | N | O | P | Q | R | S | T | U | V | W | X | Y | Z
  | OtherKey : Char → NyanKey
deriving DecidableEq

/-- `NyanInput` enum from `src/input.rs`.  `Shift` wraps another input value
(the source stores `&'a NyanInput` obtained from `Box::leak`; the wrapped
value is modelled directly). -/
inductive NyanInput where
  | Shift : NyanInput → NyanInput
  | Ctrl : NyanKey → NyanInput
  | Alt : NyanKey → NyanInput
  | UpAllow | DownAllow | LeftAllow | RightAllow
  | Enter | BackSpace | Tab | Esc | End | CapsLock | Insert | Home
  | PageUp | PageDown | Delete
  | FunctionKey : Nat → NyanInput
  | Key : NyanKey → NyanInput
  | Null
deriving DecidableEq

/-- The modifier bits of a crossterm `KeyEvent` that `get_input` inspects
(`KeyModifiers::CONTROL`, `ALT`, `SHIFT`). -/
structure KeyModifiers where
  control : Bool
  alt : Bool
  shift : Bool
deriving DecidableEq

/-- The crossterm `KeyCode` constructors matched by `get_input`
(`src/input.rs`); `Other` stands for every key code the decoder's final
wildcard arm maps to `Null` (`u8` of `F` as `Nat`). -/
inductive KeyCode where
  | Char : Char → KeyCode
  | Left | Right | Up | Down
  | Enter | Backspace | Tab | Esc | End | Insert | CapsLock | Home
  | PageUp | PageDown | Delete
  | F : Nat → KeyCode
  | Null
  | Other
deriving DecidableEq

/-- The character-to-key table inside `NyanInput::get_input`
(`src/input.rs`): `ch.to_ascii_lowercase()` matched against `'a'`–`'z'`,
anything else becoming `OtherKey` of the (lowercased) character.
`Char.toLower` lowercases exactly the ASCII range, like
`char::to_ascii_lowercase`. -/
def charToNyanKey (ch : Char) : NyanKey :=
  match ch.toLower with
  | 'a' => NyanKey.A
  | 'b' => NyanKey.B
  | 'c' => NyanKey.C
  | 'd' => NyanKey.D
  | 'e' => NyanKey.E
  | 'f' => NyanKey.F
  | 'g' => NyanKey.G
  | 'h' => NyanKey.H
  | 'i' => NyanKey.I
  | 'j' => NyanKey.J
  | 'k' => NyanKey.K
  | 'l' => NyanKey.L
  | 'm' => NyanKey.M
  | 'n' => NyanKey.N
  | 'o' => NyanKey.O
  | 'p' => NyanKey.P
  | 'q' => NyanKey.Q
  | 'r' => NyanKey.R
  | 's' => NyanKey.S
  | 't' => NyanKey.T
  | 'u' => NyanKey.U
  | 'v' => NyanKey.V
  | 'w' => NyanKey.W
  | 'x' => NyanKey.X
  | 'y' => NyanKey.Y
  | 'z' => NyanKey.Z
  | p => NyanKey.OtherKey p

/-- The decoding step of `NyanInput::get_input` (`src/input.rs`) for a key
event that did arrive: for a character key, build the `NyanKey` and apply at
most one modifier wrapper by the source's `if`/`else if` chain — Ctrl first,
then Alt, then Shift, else a plain `Key`; named keys map one-to-one; the
wildcard arm returns `Null`.  (The surrounding poll with its 16 ms timeout,
and the no-event and non-key-event paths that return `Null`, are driver
interaction outside this pure decoding step.) -/
def NyanInput.get_input (code : KeyCode) (modifiers : KeyModifiers) : NyanInput :=
  match code with
  | KeyCode.Char ch =>
    let nyan_key := charToNyanKey ch
    if modifiers.control then NyanInput.Ctrl nyan_key
    else if modifiers.alt then NyanInput.Alt nyan_key
    else if modifiers.shift then NyanInput.Shift (NyanInput.Key nyan_key)
    else NyanInput.Key nyan_key
  | KeyCode.Left => NyanInput.LeftAllow
  | KeyCode.Right => NyanInput.RightAllow
  | KeyCode.Up => NyanInput.UpAllow
  | KeyCode.Down => NyanInput.DownAllow
  | KeyCode.Enter => NyanInput.Enter
  | KeyCode.Backspace => NyanInput.BackSpace
  | KeyCode.Tab => NyanInput.Tab
  | KeyCode.Esc => NyanInput.Esc
  | KeyCode.End => NyanInput.End
  | KeyCode.Insert => NyanInput.Insert
  | KeyCode.CapsLock => NyanInput.CapsLock
  | KeyCode.Home => NyanInput.Home
  | KeyCode.PageUp => NyanInput.PageUp
  | KeyCode.PageDown => NyanInput.PageDown
  | KeyCode.Delete => NyanInput.Delete
  | KeyCode.F f => NyanInput.FunctionKey f
  | KeyCode.Null => NyanInput.Null
  | KeyCode.Other => NyanInput.Null

theorem App.draw_fst (a : App) : (a.draw).1 = { a with looped := true } := rfl

theorem App.runFrames_succ (a : App) (n : Nat) :
    App.runFrames a (n + 1) =
      ((App.runFrames (a.draw).1 n).1,
       (a.draw).2.1 ++ (App.runFrames (a.draw).1 n).2) := rfl

theorem App.runFrames_fst (a : App) :
    ∀ n : Nat, 1 ≤ n → (App.runFrames a n).1 = { a with looped := true } := by
  intro n
  induction n generalizing a with
  | zero => intro h; omega
  | succ n ih =>
    intro _
    cases n with
    | zero => rfl
    | succ m =>
      rw [App.runFrames_succ]
      exact ih (a.draw).1 (by omega)

theorem App.draw_setup_count_looped (a : App) (h : a.looped = true) :
    ((a.draw).2.1).count TermEvent.enableRawMode = 0 ∧
    ((a.draw).2.1).count TermEvent.enterAlternateScreen = 0 := by
  cases hc : a.cursor <;> cases hcl : a.clear <;>
    simp [App.draw, h, hc, hcl]

theorem App.runFrames_setup_count_looped (a : App) (h : a.looped = true) :
    ∀ n : Nat,
      ((App.runFrames a n).2).count TermEvent.enableRawMode = 0 ∧
      ((App.runFrames a n).2).count TermEvent.enterAlternateScreen = 0 := by
  intro n
  induction n generalizing a with
  | zero => simp [App.runFrames]
  | succ n ih =>
    rw [App.runFrames_succ]
    have hd := App.draw_setup_count_looped a h
    have hr := ih (a.draw).1 rfl
    simp [List.count_append, hd.1, hd.2, hr.1, hr.2]

theorem App.draw_setup_count_first (a : App) (h : a.looped = false) :
    ((a.draw).2.1).count TermEvent.enableRawMode = (if a.rawmode then 1 else 0) ∧
    ((a.draw).2.1).count TermEvent.enterAlternateScreen =
      (if a.alternatescreen then 1 else 0) := by
  cases has : a.alternatescreen <;> cases hrm : a.rawmode <;> cases hc : a.cursor <;>
    cases hcl : a.clear <;> simp [App.draw, h, has, hrm, hc, hcl]

theorem App.exit_disable_count (a : App) :
    (a.exit).count TermEvent.disableRawMode = (if a.rawmode then 1 else 0) := by
  cases hrm : a.rawmode <;> simp [App.exit, hrm]

/-- Claim C10 (confirmed): each builder-style configuration method on `App`
(`alternate_screen`, `clear`, `raw_mode`, `hide_cursor`, `fps`) rebuilds the
value with exactly one field changed and every other field — including the
internal first-frame flag `looped` — unchanged. -/
theorem C10_builder_single_field (a : App) (f : Nat) :
    a.alternate_screen = { a with alternatescreen := true } ∧
    a.set_clear = { a with clear := true } ∧
    a.raw_mode = { a with rawmode := true } ∧
    a.hide_cursor = { a with cursor := true } ∧
    a.set_fps f = { a with fps := f } :=
  ⟨rfl, rfl, rfl, rfl, rfl⟩

/-- Claim C1 counterexample: constructing with fps 60 and then calling the
`fps` setter with 0 leaves `fps = 0` in the state, and on the next frame the
sleep computation `1000 / fps` divides by zero (modelled `none`) instead of
sleeping `1000 / max(1, 0) = 1000` milliseconds as the claim requires. -/
theorem C1_counterexample :
    ¬ ((((App.new 60).set_fps 0).draw).2.2 = some (1000 / Nat.max 1 0)) := by
  decide

/-- Claim C1 (corrected): the `max(1, fps)` clamp applies only in the
constructor.  For every fps configured via `App::new`, the frame sleep is
`1000 / max(1, fps)` ms and fps 0 behaves exactly like fps 1; but the `fps`
setter stores its argument unclamped, so after `set_fps f` the frame sleep is
`1000 / f` ms when `f ≥ 1` and a division-by-zero panic (`none`) when `f = 0`. -/
theorem C1_fps_sleep (f : Nat) (a : App) :
    ((App.new f).draw).2.2 = some (1000 / Nat.max 1 f) ∧
    ((a.set_fps f).draw).2.2 = (if f = 0 then none else some (1000 / f)) ∧
    ((App.new 0).draw).2.2 = ((App.new 1).draw).2.2 := by
  refine ⟨?_, ?_, rfl⟩
  · have h : ¬ (Nat.max f 1 = 0) := by
      have h1 : 1 ≤ Nat.max f 1 := Nat.le_max_right f 1
      exact fun h0 => by omega
    simp [App.draw, App.new, App.frameSleepMs, h, Nat.max_comm]
  · simp [App.draw, App.set_fps, App.frameSleepMs]

/-- Claim C2 (confirmed): for a session whose first-frame flag is still unset,
across any run of at least two frames, raw mode is enabled exactly once when
configured, the alternate screen is entered exactly once when configured
(first frame only — the `looped` flag suppresses setup on later frames), and
`exit` on the resulting state disables raw mode exactly once. -/
theorem C2_one_shot_setup (a : App) (n : Nat) (hn : 2 ≤ n) (hl : a.looped = false) :
    (a.rawmode = true →
      ((App.runFrames a n).2).count TermEvent.enableRawMode = 1 ∧
      ((App.runFrames a n).1.exit).count TermEvent.disableRawMode = 1) ∧
    (a.alternatescreen = true →
      ((App.runFrames a n).2).count TermEvent.enterAlternateScreen = 1) := by
  obtain ⟨m, rfl⟩ : ∃ m, n = m + 1 := ⟨n - 1, by omega⟩
  have hd := App.draw_setup_count_first a hl
  have hrest := App.runFrames_setup_count_looped (a.draw).1 rfl m
  have hfst : (App.runFrames a (m + 1)).1 = { a with looped := true } :=
    App.runFrames_fst a (m + 1) (by omega)
  refine ⟨fun hrm => ⟨?_, ?_⟩, fun has => ?_⟩
  · rw [App.runFrames_succ, List.count_append, hd.1, hrest.1, hrm]
    simp
  · rw [hfst, App.exit_disable_count]
    simp [hrm]
  · rw [App.runFrames_succ, List.count_append, hd.2, hrest.2, has]
    simp

/-- Claim C2 witness: a concrete session with raw mode and alternate screen
configured, run for two frames. -/
theorem C2_one_shot_setup_witness :
    ((App.runFrames ((App.new 60).raw_mode.alternate_screen) 2).2).count
        TermEvent.enableRawMode = 1 ∧
    ((App.runFrames ((App.new 60).raw_mode.alternate_screen) 2).1.exit).count
        TermEvent.disableRawMode = 1 ∧
    ((App.runFrames ((App.new 60).raw_mode.alternate_screen) 2).2).count
        TermEvent.enterAlternateScreen = 1 := by
  have h := C2_one_shot_setup ((App.new 60).raw_mode.alternate_screen) 2
    (by decide) (by decide)
  exact ⟨(h.1 rfl).1, (h.1 rfl).2, h.2 rfl⟩

/-- Claim C8 (confirmed): for every character-key event, the decoder applies
at most one modifier wrapper, chosen by strict precedence Ctrl over Alt over
Shift over none: whenever the Ctrl bit is set the result is `Ctrl(key)`
regardless of the Alt and Shift bits; Alt applies only when Ctrl is clear;
Shift (wrapping a plain key press) only when Ctrl and Alt are clear; and a
plain `Key` when no modifier bit is set. -/
theorem C8_modifier_precedence (c : Char) (m : KeyModifiers) :
    (m.control = true →
      NyanInput.get_input (KeyCode.Char c) m = NyanInput.Ctrl (charToNyanKey c)) ∧
    (m.control = false → m.alt = true →
      NyanInput.get_input (KeyCode.Char c) m = NyanInput.Alt (charToNyanKey c)) ∧
    (m.control = false → m.alt = false → m.shift = true →
      NyanInput.get_input (KeyCode.Char c) m =
        NyanInput.Shift (NyanInput.Key (charToNyanKey c))) ∧
    (m.control = false → m.alt = false → m.shift = false →
      NyanInput.get_input (KeyCode.Char c) m = NyanInput.Key (charToNyanKey c)) := by
  refine ⟨fun hc => ?_, fun hc ha => ?_, fun hc ha hs => ?_, fun hc ha hs => ?_⟩
  · simp [NyanInput.get_input, hc]
  · simp [NyanInput.get_input, hc, ha]
  · simp [NyanInput.get_input, hc, ha, hs]
  · simp [NyanInput.get_input, hc, ha, hs]

/-- Claim C8 witness: `'A'` with Ctrl, Alt and Shift all set decodes to
`Ctrl(Key::A)`. -/
theorem C8_modifier_precedence_witness :
    NyanInput.get_input (KeyCode.Char 'A')
        { control := true, alt := true, shift := true } = NyanInput.Ctrl NyanKey.A := by
  have h := (C8_modifier_precedence 'A'
    { control := true, alt := true, shift := true }).1 rfl
  have e : charToNyanKey 'A' = NyanKey.A := by decide
  rw [e] at h
  exact h

theorem hashMapGet_remove_self {α : Type} (k : String) :
    ∀ l : List (String × α), hashMapGet k (hashMapRemove k l) = none := by
  intro l
  induction l with
  | nil => rfl
  | cons p rest ih =>
    obtain ⟨k', v'⟩ := p
    by_cases h : k = k'
    · simpa [hashMapRemove, h] using ih
    · simpa [hashMapRemove, hashMapGet, h] using ih

theorem hashMapGet_insert_self {α : Type} (k : String) (v : α)
    (l : List (String × α)) : hashMapGet k (hashMapInsert k v l) = some v := by
  simp [hashMapInsert, hashMapGet]

/-- The entries of an association list bound to key `k` (observation used to
state "exactly one entry" properties). -/
def keyEntries {α : Type} (k : String) (l : List (String × α)) :
    List (String × α) :=
  l.filter (fun p => decide (p.1 = k))

theorem keyEntries_remove_self {α : Type} (k : String) :
    ∀ l : List (String × α), keyEntries k (hashMapRemove k l) = [] := by
  intro l
  induction l with
  | nil => rfl
  | cons p rest ih =>
    obtain ⟨k', v'⟩ := p
    by_cases h : k = k'
    · simpa [hashMapRemove, h] using ih
    · have h' : ¬ (k' = k) := fun e => h e.symm
      simpa [hashMapRemove, keyEntries, h, h'] using ih

theorem keyEntries_insert_self {α : Type} (k : String) (v : α)
    (l : List (String × α)) : keyEntries k (hashMapInsert k v l) = [(k, v)] := by
  have h := keyEntries_remove_self k l
  simp [hashMapInsert, keyEntries] at h ⊢
  exact h

theorem listPosition_none_iff {α : Type} (p : α → Bool) :
    ∀ l : List α, listPosition p l = none ↔ l.filter p = [] := by
  intro l
  induction l with
  | nil => simp [listPosition]
  | cons a l ih =>
    by_cases h : p a
    · simp [listPosition, h]
    · simp [listPosition, h, ih]

theorem listPosition_get {α : Type} (p : α → Bool) :
    ∀ (l : List α) (i : Nat), listPosition p l = some i →
      ∃ a, l.get? i = some a ∧ p a = true := by
  intro l
  induction l with
  | nil => intro i h; cases h
  | cons a l ih =>
    intro i h
    by_cases hp : p a
    · simp [listPosition, hp] at h
      exact h ▸ ⟨a, rfl, hp⟩
    · simp [listPosition, hp] at h
      obtain ⟨j, hj, hji⟩ := h
      obtain ⟨b, hb, hpb⟩ := ih j hj
      exact ⟨b, by simpa [← hji] using hb, hpb⟩

theorem filter_eraseIdx_listPosition {α : Type} (p : α → Bool) :
    ∀ (l : List α) (i : Nat), listPosition p l = some i →
      (l.eraseIdx i).filter p = (l.filter p).tail := by
  intro l
  induction l with
  | nil => intro i h; cases h
  | cons a l ih =>
    intro i h
    by_cases hp : p a
    · simp [listPosition, hp] at h
      subst h
      simp [List.eraseIdx, List.filter_cons_of_pos, hp]
    · simp [listPosition, hp] at h
      obtain ⟨j, hj, hji⟩ := h
      subst hji
      simp [List.eraseIdx, List.filter_cons_of_neg, hp, ih j hj]

theorem listPosition_append_none {α : Type} (p : α → Bool) :
    ∀ (l1 l2 : List α), listPosition p l1 = none →
      listPosition p (l1 ++ l2) =
        (listPosition p l2).map (fun j => l1.length + j) := by
  intro l1 l2 h
  induction l1 with
  | nil =>
    cases h2 : listPosition p l2 <;> simp [h2]
  | cons a l ih =>
    by_cases hp : p a
    · simp [listPosition, hp] at h
    · simp [listPosition, hp] at h
      have := ih h
      cases h2 : listPosition p l2 <;> simp [listPosition, hp, this, h2]
      omega

theorem get?_append_length {α : Type} (x : α) :
    ∀ (l1 l2 : List α), (l1 ++ x :: l2).get? l1.length = some x := by
  intro l1 l2
  induction l1 with
  | nil => rfl
  | cons a l ih => simpa using ih

theorem length_eraseIdx_add_one {α : Type} :
    ∀ (l : List α) (i : Nat), i < l.length → (l.eraseIdx i).length + 1 = l.length := by
  intro l
  induction l with
  | nil => intro i h; simp at h
  | cons a l ih =>
    intro i h
    cases i with
    | zero => simp [List.eraseIdx]
    | succ j =>
      have := ih j (by simpa using h)
      simp [List.eraseIdx]
      omega

/-- The entries of the `Vec`-based registry whose id equals `id` (observation
used to state entry-count properties). -/
def nyan_obj.NyanObj.entriesFor (m : nyan_obj.NyanObj) (id : String) :
    List nyan_obj.NyanObjs :=
  m.inner.filter (fun f => decide (f.id = id))

/-- Claim C3 counterexample: in the map-based variant (`src/nyanobj.rs`),
`remove_object` has Rust return type `()` — its whole observable result is
the new registry state — so removing the absent id `"missing"` from the empty
registry is a successful no-op and no `ObjectNotFound` error is (or can be)
returned, contrary to the claim that remove on an absent id returns
`ObjectNotFound` in every registry. -/
theorem C3_counterexample :
    nyanobj.NyanObj.new.remove_object "missing" = nyanobj.NyanObj.new := rfl

/-- Claim C3 (corrected): in the map-based variant remove reports nothing and
silently ignores an absent id, but after removing, a draw of that id always
returns `ObjectNotFound`; in the list-based variant (`src/nyan_obj.rs`)
remove on an absent id returns `ObjectNotFound`, and remove of an id with
exactly one entry succeeds and leaves a registry in which drawing that id
returns `ObjectNotFound`. -/
theorem C3_remove_semantics :
    (∀ (m : nyanobj.NyanObj) (id : String),
        (m.remove_object id).draw_object id =
          DrawOutcome.error (NyanError.ObjectNotFound id)) ∧
    (∀ (m : nyan_obj.NyanObj) (id : String),
        m.get id = none →
          m.remove_object id = Except.error (NyanError.ObjectNotFound id)) ∧
    (∀ (m : nyan_obj.NyanObj) (id : String) (i : Nat),
        m.get id = some i → (m.entriesFor id).length = 1 →
          ∃ m' : nyan_obj.NyanObj,
            m.remove_object id = Except.ok m' ∧
            m'.draw_object id = DrawOutcome.error (NyanError.ObjectNotFound id)) := by
  refine ⟨fun m id => ?_, fun m id h => ?_, fun m id i hi hcount => ?_⟩
  · simp [nyanobj.NyanObj.draw_object, nyanobj.NyanObj.remove_object,
      hashMapGet_remove_self]
  · unfold nyan_obj.NyanObj.remove_object
    unfold nyan_obj.NyanObj.get at h
    rw [h]
  · unfold nyan_obj.NyanObj.get at hi
    unfold nyan_obj.NyanObj.entriesFor at hcount
    refine ⟨{ inner := m.inner.eraseIdx i }, ?_, ?_⟩
    · unfold nyan_obj.NyanObj.remove_object
      rw [hi]
    · have hfe := filter_eraseIdx_listPosition (fun f => decide (f.id = id)) m.inner i hi
      have hnil : (m.inner.eraseIdx i).filter (fun f => decide (f.id = id)) = [] := by
        rw [hfe]
        have : ((m.inner.filter (fun f => decide (f.id = id))).tail).length = 0 := by
          rw [List.length_tail]
          omega
        exact List.length_eq_zero.mp this
      have hpos2 : listPosition (fun f => decide (f.id = id)) (m.inner.eraseIdx i) = none :=
        (listPosition_none_iff _ _).mpr hnil
      unfold nyan_obj.NyanObj.draw_object nyan_obj.NyanObj.get
      simp [hpos2]

/-- Claim C3 witness: concrete list-based registry holding `"x"`; removing
the absent `"y"` errors, removing `"x"` succeeds and the subsequent draw of
`"x"` returns `ObjectNotFound`. -/
theorem C3_remove_semantics_witness :
    ((nyan_obj.NyanObj.new.add_object "x" (Objects.Text "hi") (0, 0)).remove_object "y" =
        Except.error (NyanError.ObjectNotFound "y")) ∧
    (∃ m' : nyan_obj.NyanObj,
        (nyan_obj.NyanObj.new.add_object "x" (Objects.Text "hi") (0, 0)).remove_object
            "x" = Except.ok m' ∧
        m'.draw_object "x" = DrawOutcome.error (NyanError.ObjectNotFound "x")) :=
  ⟨C3_remove_semantics.2.1 _ "y" (by decide),
   C3_remove_semantics.2.2 _ "x" 0 (by decide) (by decide)⟩

/-- Claim C4 counterexample: in the list-based variant (`src/nyan_obj.rs`),
adding `"a"` twice pushes two entries onto the vector, so the registry does
not hold exactly one entry for `"a"`. -/
theorem C4_counterexample :
    ¬ ((((nyan_obj.NyanObj.new.add_object "a" (Objects.Text "1") (0, 0)).add_object "a"
          (Objects.Text "2") (0, 0)).entriesFor "a").length = 1) := by
  decide

/-- Claim C4 (corrected): in the map-based variant, adding twice under the
same id leaves exactly one entry equal to the second value (insert
overwrites); in the list-based variant, adding twice under an id that was
absent leaves two entries for that id, and lookups resolve to the
first-added entry (first-match), not the second. -/
theorem C4_add_overwrite :
    (∀ (m : nyanobj.NyanObj) (id : String) (o1 o2 : Objects),
        keyEntries id ((m.add_object id o1).add_object id o2).objects = [(id, o2)]) ∧
    (∀ (m : nyan_obj.NyanObj) (id : String) (o1 o2 : Objects) (c1 c2 : Nat × Nat),
        m.get id = none →
          (((m.add_object id o1 c1).add_object id o2 c2).entriesFor id).length = 2 ∧
          ((m.add_object id o1 c1).add_object id o2 c2).get id = some m.inner.length ∧
          ((m.add_object id o1 c1).add_object id o2 c2).inner.get? m.inner.length =
            some { object := o1, id := id, coordinate := c1 }) := by
  constructor
  · intro m id o1 o2
    simp [nyanobj.NyanObj.add_object, keyEntries_insert_self]
  · intro m id o1 o2 c1 c2 h
    unfold nyan_obj.NyanObj.get at h
    have hfilter : m.inner.filter (fun f => decide (f.id = id)) = [] :=
      (listPosition_none_iff _ _).mp h
    refine ⟨?_, ?_, ?_⟩
    · unfold nyan_obj.NyanObj.entriesFor nyan_obj.NyanObj.add_object
      simp [List.filter_append, hfilter]
    · unfold nyan_obj.NyanObj.get nyan_obj.NyanObj.add_object
      rw [List.append_assoc, listPosition_append_none _ _ _ h]
      simp [listPosition]
    · unfold nyan_obj.NyanObj.add_object
      rw [List.append_assoc]
      exact get?_append_length _ _ _

/-- Claim C4 witness: concrete double add of `"a"` onto the empty list-based
registry: two entries, and the position/lookup resolves to the first value. -/
theorem C4_add_overwrite_witness :
    (((nyan_obj.NyanObj.new.add_object "a" (Objects.Text "1") (0, 0)).add_object "a"
        (Objects.Text "2") (1, 1)).entriesFor "a").length = 2 ∧
    ((nyan_obj.NyanObj.new.add_object "a" (Objects.Text "1") (0, 0)).add_object "a"
        (Objects.Text "2") (1, 1)).get "a" = some 0 ∧
    ((nyan_obj.NyanObj.new.add_object "a" (Objects.Text "1") (0, 0)).add_object "a"
        (Objects.Text "2") (1, 1)).inner.get? 0 =
      some { object := Objects.Text "1", id := "a", coordinate := (0, 0) } := by
  have h := C4_add_overwrite.2 nyan_obj.NyanObj.new "a" (Objects.Text "1")
    (Objects.Text "2") (0, 0) (1, 1) rfl
  exact ⟨h.1, h.2.1, h.2.2⟩

/-- Claim C5 counterexample: `NyanTermObjs::draw_object` (`src/nyanterm.rs`)
on the absent id `"missing"` does not return `ObjectNotFound("missing")` —
it panics. -/
theorem C5_counterexample :
    ¬ (nyanterm.NyanTermObjs.new.draw_object "missing" =
        DrawOutcome.error (NyanError.ObjectNotFound "missing")) := by
  decide

/-- Claim C5 (corrected): `NyanObj::draw_object` (`src/nyanobj.rs`) returns
the error `ObjectNotFound(id)` for every absent id — in particular
`draw("missing")` on the empty registry — but `NyanTermObjs::draw_object`
(`src/nyanterm.rs`) panics on an absent id instead of returning the error. -/
theorem C5_draw_missing :
    (∀ (m : nyanobj.NyanObj) (id : String),
        hashMapGet id m.objects = none →
          m.draw_object id = DrawOutcome.error (NyanError.ObjectNotFound id)) ∧
    (nyanobj.NyanObj.new.draw_object "missing" =
        DrawOutcome.error (NyanError.ObjectNotFound "missing")) ∧
    (∀ (m : nyanterm.NyanTermObjs) (id : String),
        hashMapGet id m.objects = none →
          m.draw_object id = DrawOutcome.panicked (nyanterm.notFoundPanicMsg id)) := by
  refine ⟨fun m id h => ?_, rfl, fun m id h => ?_⟩
  · simp [nyanobj.NyanObj.draw_object, h]
  · simp [nyanterm.NyanTermObjs.draw_object, h]

/-- Claim C5 witness: the two absent-id draws evaluated on empty registries. -/
theorem C5_draw_missing_witness :
    nyanobj.NyanObj.new.draw_object "missing" =
        DrawOutcome.error (NyanError.ObjectNotFound "missing") ∧
    nyanterm.NyanTermObjs.new.draw_object "missing" =
        DrawOutcome.panicked (nyanterm.notFoundPanicMsg "missing") :=
  ⟨C5_draw_missing.1 nyanobj.NyanObj.new "missing" rfl,
   C5_draw_missing.2.2 nyanterm.NyanTermObjs.new "missing" rfl⟩

/-- Prefix a cursor move onto a successful draw outcome; errors and panics
pass through.  Relates `draw_with_move` to plain drawing. -/
def withMoveOutcome (c : Cursor) : DrawOutcome → DrawOutcome
  | DrawOutcome.ok evs => DrawOutcome.ok (TermEvent.cursorCmd c :: evs)
  | o => o

/-- Claim C6 counterexample: in the map-based variant (`src/nyanobj.rs`),
`draw_with_move` of the absent id `"missing"` on the empty registry does not
fail with `ObjectNotFound` — the `if let` falls through and it returns
`Ok(())` having drawn nothing. -/
theorem C6_counterexample :
    ¬ (nyanobj.NyanObj.new.draw_with_move "missing" (Cursor.Move 0 0) =
        DrawOutcome.error (NyanError.ObjectNotFound "missing")) := by
  decide

/-- Claim C6 (corrected): for present ids `draw_with_move` behaves exactly
like the plain draw with the explicit cursor command in place of the stored
coordinate; for absent ids the list-based variant fails with `ObjectNotFound`
for every cursor command, while the map-based variant silently returns
success without drawing. -/
theorem C6_draw_with_move :
    (∀ (m : nyanobj.NyanObj) (id : String) (c : Cursor),
        hashMapGet id m.objects = none →
          m.draw_with_move id c = DrawOutcome.ok []) ∧
    (∀ (m : nyanobj.NyanObj) (id : String) (c : Cursor) (o : Objects),
        hashMapGet id m.objects = some o →
          m.draw_with_move id c = withMoveOutcome c (m.draw_object id)) ∧
    (∀ (m : nyan_obj.NyanObj) (id : String) (c : Cursor),
        m.get id = none →
          m.draw_with_move id c = DrawOutcome.error (NyanError.ObjectNotFound id)) ∧
    (∀ (m : nyan_obj.NyanObj) (id : String) (c : Cursor) (i : Nat)
        (obj : nyan_obj.NyanObjs),
        m.get id = some i → m.inner.get? i = some obj →
          ∃ o : DrawOutcome,
            m.draw_object id =
              withMoveOutcome (Cursor.Move obj.coordinate.1 obj.coordinate.2) o ∧
            m.draw_with_move id c = withMoveOutcome c o) := by
  refine ⟨fun m id c h => ?_, fun m id c o h => ?_, fun m id c h => ?_,
    fun m id c i obj hi hobj => ?_⟩
  · simp [nyanobj.NyanObj.draw_with_move, h]
  · cases o <;>
      simp [nyanobj.NyanObj.draw_with_move, nyanobj.NyanObj.draw_object, h,
        withMoveOutcome]
  · simp [nyan_obj.NyanObj.draw_with_move, h]
  · rw [List.get?_eq_getElem?] at hobj
    cases hoo : obj.object with
    | Text t =>
      exact ⟨DrawOutcome.ok [TermEvent.print t],
        by simp [nyan_obj.NyanObj.draw_object, hi, hobj, hoo, withMoveOutcome],
        by simp [nyan_obj.NyanObj.draw_with_move, hi, hobj, hoo, withMoveOutcome]⟩
    | Air =>
      exact ⟨DrawOutcome.ok [],
        by simp [nyan_obj.NyanObj.draw_object, hi, hobj, hoo, withMoveOutcome],
        by simp [nyan_obj.NyanObj.draw_with_move, hi, hobj, hoo, withMoveOutcome]⟩
    | Block =>
      exact ⟨DrawOutcome.panicked "not yet implemented",
        by simp [nyan_obj.NyanObj.draw_object, hi, hobj, hoo, withMoveOutcome],
        by simp [nyan_obj.NyanObj.draw_with_move, hi, hobj, hoo, withMoveOutcome]⟩

/-- Claim C6 witness: concrete absent-id draws with an explicit cursor
command on both registry variants, and a present-id draw on the map-based
variant related to the plain draw. -/
theorem C6_draw_with_move_witness :
    nyanobj.NyanObj.new.draw_with_move "missing" (Cursor.MoveLeft 2) =
        DrawOutcome.ok [] ∧
    (nyanobj.NyanObj.new.add_object "t" (Objects.Text "hi")).draw_with_move "t"
        (Cursor.Move 3 4) =
      withMoveOutcome (Cursor.Move 3 4)
        ((nyanobj.NyanObj.new.add_object "t" (Objects.Text "hi")).draw_object "t") ∧
    nyan_obj.NyanObj.new.draw_with_move "missing" (Cursor.MoveDown 1) =
        DrawOutcome.error (NyanError.ObjectNotFound "missing") :=
  ⟨C6_draw_with_move.1 nyanobj.NyanObj.new "missing" (Cursor.MoveLeft 2) rfl,
   C6_draw_with_move.2.1 _ "t" (Cursor.Move 3 4) (Objects.Text "hi") (by decide),
   C6_draw_with_move.2.2.1 nyan_obj.NyanObj.new "missing" (Cursor.MoveDown 1) rfl⟩

/-- Claim C7 counterexample: in the map-based variant (`src/nyanobj.rs`),
`update_object` of the absent id `"a"` on the empty registry inserts a new
entry for `"a"` — after the update, `"a"` is bound — contradicting the claim
that update never inserts a new entry for an absent id. -/
theorem C7_counterexample :
    ¬ (hashMapGet "a"
        (nyanobj.NyanObj.new.update_object "a" (Objects.Text "x")).objects = none) := by
  decide

/-- Claim C7 (corrected): in the map-based variant, `update_object` is
remove-then-insert and acts as an upsert — after it, the registry holds
exactly one entry for the id, equal to the new object, whether or not the id
was present; in the list-based variant (`src/nyan_obj.rs`), `update_object`
takes no replacement object at all: it fails with `ObjectNotFound` when the
id is absent and, when present, only removes one entry and inserts nothing. -/
theorem C7_update_semantics :
    (∀ (m : nyanobj.NyanObj) (id : String) (o : Objects),
        keyEntries id (m.update_object id o).objects = [(id, o)]) ∧
    (∀ (m : nyan_obj.NyanObj) (id : String),
        m.get id = none →
          m.update_object id = Except.error (NyanError.ObjectNotFound id)) ∧
    (∀ (m m' : nyan_obj.NyanObj) (id : String),
        m.update_object id = Except.ok m' → m'.inner.length + 1 = m.inner.length) := by
  refine ⟨fun m id o => ?_, fun m id h => ?_, fun m m' id h => ?_⟩
  · simp [nyanobj.NyanObj.update_object, keyEntries_insert_self]
  · unfold nyan_obj.NyanObj.update_object nyan_obj.NyanObj.remove_object
    unfold nyan_obj.NyanObj.get at h
    rw [h]
  · unfold nyan_obj.NyanObj.update_object nyan_obj.NyanObj.remove_object at h
    cases hp : listPosition (fun f => decide (f.id = id)) m.inner with
    | none => rw [hp] at h; cases h
    | some i =>
      rw [hp] at h
      cases h
      obtain ⟨a, ha, _⟩ := listPosition_get _ m.inner i hp
      have hlt : i < m.inner.length := by
        rcases List.get?_eq_some.mp ha with ⟨hl, _⟩
        exact hl
      simpa using length_eraseIdx_add_one m.inner i hlt

/-- Claim C7 witness: updating an absent id errors in the list-based variant,
and updating a present id there shrinks the registry by one entry. -/
theorem C7_update_semantics_witness :
    (nyan_obj.NyanObj.new.update_object "a" =
        Except.error (NyanError.ObjectNotFound "a")) ∧
    (∀ m' : nyan_obj.NyanObj,
        (nyan_obj.NyanObj.new.add_object "a" Objects.Air (0, 0)).update_object "a" =
            Except.ok m' →
          m'.inner.length + 1 =
            (nyan_obj.NyanObj.new.add_object "a" Objects.Air (0, 0)).inner.length) :=
  ⟨C7_update_semantics.2.1 nyan_obj.NyanObj.new "a" rfl,
   fun m' h => C7_update_semantics.2.2 _ m' "a" h⟩

/-- Claim C9 (confirmed): drawing a `Block` entry never succeeds silently —
in every registry variant, a `Block` bound to an id makes `draw_object` (and
`draw_with_move`, where it exists) abort via `todo!()` (modelled as a panic
with the standard not-yet-implemented message), never a successful no-op
like `Air`. -/
theorem C9_block_draw_aborts :
    (∀ (m : nyanobj.NyanObj) (id : String),
        hashMapGet id m.objects = some Objects.Block →
          m.draw_object id = DrawOutcome.panicked "not yet implemented" ∧
          (∀ c : Cursor,
            m.draw_with_move id c = DrawOutcome.panicked "not yet implemented") ∧
          (∀ evs : List TermEvent, m.draw_object id ≠ DrawOutcome.ok evs)) ∧
    (∀ (m : nyan_obj.NyanObj) (id : String) (i : Nat) (obj : nyan_obj.NyanObjs),
        m.get id = some i → m.inner.get? i = some obj → obj.object = Objects.Block →
          m.draw_object id = DrawOutcome.panicked "not yet implemented" ∧
          (∀ c : Cursor,
            m.draw_with_move id c = DrawOutcome.panicked "not yet implemented")) ∧
    (∀ (m : nyanterm.NyanTermObjs) (id : String),
        hashMapGet id m.objects = some Objects.Block →
          m.draw_object id = DrawOutcome.panicked "not yet implemented") := by
  refine ⟨fun m id h => ⟨?_, fun c => ?_, fun evs => ?_⟩,
    fun m id i obj hi hobj hoo => ⟨?_, fun c => ?_⟩, fun m id h => ?_⟩
  · simp [nyanobj.NyanObj.draw_object, h]
  · simp [nyanobj.NyanObj.draw_with_move, h]
  · simp [nyanobj.NyanObj.draw_object, h]
  · rw [List.get?_eq_getElem?] at hobj
    simp [nyan_obj.NyanObj.draw_object, hi, hobj, hoo]
  · rw [List.get?_eq_getElem?] at hobj
    simp [nyan_obj.NyanObj.draw_with_move, hi, hobj, hoo]
  · simp [nyanterm.NyanTermObjs.draw_object, h]

/-- Claim C9 witness: a `Block` object registered under `"b"` in each
registry variant aborts when drawn. -/
theorem C9_block_draw_aborts_witness :
    (nyanobj.NyanObj.new.add_object "b" Objects.Block).draw_object "b" =
        DrawOutcome.panicked "not yet implemented" ∧
    (nyanobj.NyanObj.new.add_object "b" Objects.Block).draw_with_move "b"
        (Cursor.Move 1 2) = DrawOutcome.panicked "not yet implemented" ∧
    (nyan_obj.NyanObj.new.add_object "b" Objects.Block (2, 3)).draw_object "b" =
        DrawOutcome.panicked "not yet implemented" ∧
    (nyanterm.NyanTermObjs.new.add_object "b" Objects.Block).draw_object "b" =
        DrawOutcome.panicked "not yet implemented" := by
  have h1 := C9_block_draw_aborts.1 (nyanobj.NyanObj.new.add_object "b" Objects.Block)
    "b" (by decide)
  have h2 := C9_block_draw_aborts.2.1
    (nyan_obj.NyanObj.new.add_object "b" Objects.Block (2, 3)) "b" 0
    { object := Objects.Block, id := "b", coordinate := (2, 3) }
    (by decide) (by decide) rfl
  have h3 := C9_block_draw_aborts.2.2
    (nyanterm.NyanTermObjs.new.add_object "b" Objects.Block) "b" (by decide)
  exact ⟨h1.1, h1.2.1 (Cursor.Move 1 2), h2.1, h3⟩
